import Mathlib

/-!
# Verification of go-mitmproxy core components

A shallow embedding of the core data flow of the `go-mitmproxy` repository,
together with theorems settling a list of claims about its behaviour.

Conventions of the embedding:
* Go byte slices are `List Nat` (each element a byte value); `io.Reader`s whose
  total content is a finite byte sequence are represented by that sequence.
  Error-free readers are modelled (read errors are orthogonal to the claims).
* Go `nil` slices / pointers are `Option`; a `nil` byte slice is `none`.
* Stateful code is explicit state passing; effects of interest (addon hook
  invocations, upstream exchanges, replies) are recorded in event traces.
-/

namespace GoMitmProxy

/-! ## internal/helper: pure helpers (`helper.go` in package `helper`) -/

/-- Embedding of `helper.ReaderToBuffer(r, limit)` for a reader whose total
content is the byte sequence `b`. `io.Copy(buf, io.LimitReader(r, limit))`
copies `min(len b, limit)` bytes into `buf`; when `buf.Len() == limit` the
function returns `(nil, MultiReader(buf, r))` — i.e. no buffer and a reader
whose content is the buffered prefix followed by the unread remainder —
otherwise it returns `(buf.Bytes(), nil)`. Result: `(buffer?, reader?)`. -/
def ReaderToBuffer (b : List Nat) (limit : Nat) : Option (List Nat) × Option (List Nat) :=
  let buf := b.take limit
  if buf.length == limit then
    (none, some (buf ++ b.drop limit))
  else
    (some buf, none)

/-- Embedding of `helper.IsTLS(buf)`.  The Go source is
`if buf[0] == 0x16 && buf[1] == 0x03 && buf[2] <= 0x03 { return true }; return false`;
`&&` short-circuits, so an index is only evaluated (and can only panic) when
every earlier conjunct held.  `none` models an index-out-of-range panic. -/
def IsTLS (buf : List Nat) : Option Bool := do
  let b0 ← buf.get? 0
  if b0 = 0x16 then
    let b1 ← buf.get? 1
    if b1 = 0x03 then
      let b2 ← buf.get? 2
      if b2 ≤ 0x03 then pure true else pure false
    else
      pure false
  else
    pure false

/-- Embedding of `strings.Cut(s, " ")` as used in `GetProxyConn`: split at the
first space, returning the part after it, or `none` when no space occurs. -/
def cutAtSpace (s : List Char) : Option (List Char × List Char) :=
  match s.findIdx? (fun c => c = ' ') with
  | none => none
  | some i => some (s.take i, s.drop (i + 1))

/-- The standard base64 alphabet (RFC 4648), as used by
`base64.StdEncoding` in `GetProxyConn`. -/
def base64Alphabet : List Char :=
  "ABCDEFGHIJKLMNOPQRSTUVWXYZabcdefghijklmnopqrstuvwxyz0123456789+/".toList

/-- One character of the standard base64 alphabet. -/
def base64Char (i : Nat) : Char := base64Alphabet.getD i '?'

/-- RFC 4648 standard base64 of a byte sequence, with `=` padding — the
behaviour of `base64.StdEncoding.EncodeToString`. -/
def base64EncodeChars : List Nat → List Char
  | [] => []
  | [b0] =>
    [base64Char (b0 / 4), base64Char (b0 % 4 * 16), '=', '=']
  | [b0, b1] =>
    [base64Char (b0 / 4), base64Char (b0 % 4 * 16 + b1 / 16),
     base64Char (b1 % 16 * 4), '=']
  | b0 :: b1 :: b2 :: rest =>
    base64Char (b0 / 4) :: base64Char (b0 % 4 * 16 + b1 / 16) ::
    base64Char (b1 % 16 * 4 + b2 / 64) :: base64Char (b2 % 64) ::
    base64EncodeChars rest

/-- `base64.StdEncoding.EncodeToString([]byte(s))` for an ASCII string. -/
def base64EncodeString (s : String) : String :=
  String.mk (base64EncodeChars (s.toList.map Char.toNat))

/-! ## proxy/internal/conn/wrapper.go: connection wrappers

Errors returned by the underlying `net.Conn.Close` are modelled as
`Option String` (`none` = nil error).  Mutex-protected state becomes explicit
state passing; the sequence of `Close` calls is the serialization order the
mutex imposes. -/

/-- The close-related state of a `WrapClientConn`: the `closed` flag and the
saved `closeErr`, whether the broadcast `CloseChan` has been closed, and
whether the underlying `net.Conn` has been closed. -/
structure WrapClientConnState where
  closed : Bool
  closeErr : Option String
  closeChanClosed : Bool
  underlyingClosed : Bool
  deriving Repr, DecidableEq

/-- A freshly constructed `WrapClientConn` (`NewWrapClientConn`). -/
def WrapClientConnState.init : WrapClientConnState :=
  { closed := false, closeErr := none, closeChanClosed := false, underlyingClosed := false }

/-- Observable effects of one `WrapClientConn.Close` call, plus the state after it. -/
structure ClientCloseEffect where
  state : WrapClientConnState
  /-- `NotifyClientDisconnected` was fired during this call. -/
  notifiedClientDisconnected : Bool
  /-- `ConnCtx.ServerConn.Conn.Close()` was invoked during this call. -/
  closedServerConn : Bool
  /-- the error value returned by this call -/
  ret : Option String
  deriving Repr, DecidableEq

/-- Embedding of `WrapClientConn.Close`.  `hasNotifier` is whether
`addonNotifier != nil`; `serverConnPresent` is whether
`ConnCtx.ServerConn != nil && ConnCtx.ServerConn.Conn != nil`;
`underlyingErr` is the error the underlying `Conn.Close()` would return. -/
def wrapClientConnClose (hasNotifier serverConnPresent : Bool)
    (underlyingErr : Option String) (st : WrapClientConnState) : ClientCloseEffect :=
  if st.closed then
    { state := st, notifiedClientDisconnected := false, closedServerConn := false,
      ret := st.closeErr }
  else
    { state := { closed := true, closeErr := underlyingErr, closeChanClosed := true,
                 underlyingClosed := true },
      notifiedClientDisconnected := hasNotifier,
      closedServerConn := serverConnPresent,
      ret := underlyingErr }

/-- Iterate `WrapClientConn.Close` over a sequence of calls (one entry of
`errs` per call, giving the error the underlying close would return on that
call), collecting each call's effect. -/
def wrapClientConnCloseSeq (hasNotifier serverConnPresent : Bool)
    (st : WrapClientConnState) : List (Option String) → List ClientCloseEffect
  | [] => []
  | e :: rest =>
    let eff := wrapClientConnClose hasNotifier serverConnPresent e st
    eff :: wrapClientConnCloseSeq hasNotifier serverConnPresent eff.state rest

/-- The close-related state of a `WrapServerConn`. -/
structure WrapServerConnState where
  closed : Bool
  closeErr : Option String
  underlyingClosed : Bool
  deriving Repr, DecidableEq

/-- A freshly constructed `WrapServerConn` (`NewWrapServerConn`). -/
def WrapServerConnState.init : WrapServerConnState :=
  { closed := false, closeErr := none, underlyingClosed := false }

/-- What `WrapServerConn.Close` does to the client connection after notifying. -/
inductive ClientSideAction where
  /-- `ClientConn.TLS` is false: `CloseRead` on the client TCP socket. -/
  | halfCloseRead
  /-- TLS client and `CloseAfterResponse` is false: close the client fully. -/
  | fullClose
  /-- TLS client and `CloseAfterResponse` is true: leave the client alone. -/
  | nothing
  deriving Repr, DecidableEq

/-- Observable effects of one `WrapServerConn.Close` call. -/
structure ServerCloseEffect where
  state : WrapServerConnState
  /-- `NotifyServerDisconnected` was fired during this call. -/
  notifiedServerDisconnected : Bool
  clientAction : Option ClientSideAction
  /-- the error value returned by this call -/
  ret : Option String
  deriving Repr, DecidableEq

/-- Embedding of `WrapServerConn.Close`.  `clientTLS` is
`ConnCtx.ClientConn.TLS`, `closeAfterResponse` is `ConnCtx.CloseAfterResponse`. -/
def wrapServerConnClose (hasNotifier clientTLS closeAfterResponse : Bool)
    (underlyingErr : Option String) (st : WrapServerConnState) : ServerCloseEffect :=
  if st.closed then
    { state := st, notifiedServerDisconnected := false, clientAction := none,
      ret := st.closeErr }
  else
    { state := { closed := true, closeErr := underlyingErr, underlyingClosed := true },
      notifiedServerDisconnected := hasNotifier,
      clientAction := some (if !clientTLS then .halfCloseRead
                            else if !closeAfterResponse then .fullClose
                            else .nothing),
      ret := underlyingErr }

/-- Iterate `WrapServerConn.Close` over a sequence of calls. -/
def wrapServerConnCloseSeq (hasNotifier clientTLS closeAfterResponse : Bool)
    (st : WrapServerConnState) : List (Option String) → List ServerCloseEffect
  | [] => []
  | e :: rest =>
    let eff := wrapServerConnClose hasNotifier clientTLS closeAfterResponse e st
    eff :: wrapServerConnCloseSeq hasNotifier clientTLS closeAfterResponse eff.state rest

/-! ## Attacker TLS configuration builders (`HTTPSLazyAttack` / `HTTPSTLSDial`)

A `tls.Config` returned by a `GetConfigForClient` callback is modelled by the
fields the callbacks set.  Leaf certificates are identified by the common name
they were issued for; `getCert` models `ca.GetCert` (`none` = error). -/

/-- The fields of the `tls.Config` the attacker's `GetConfigForClient`
callbacks return. -/
structure TLSConfigModel where
  sessionTicketsDisabled : Bool
  /-- `Certificates`, each identified by the CN `ca.GetCert` was called with -/
  certificates : List String
  nextProtos : List String
  deriving Repr, DecidableEq

/-- Embedding of the `GetConfigForClient` callback in `Attacker.HTTPSLazyAttack`:
issue a leaf for `chi.ServerName` and offer only `http/1.1`. -/
def lazyGetConfigForClient (getCert : String → Option String)
    (serverName : String) : Option TLSConfigModel :=
  match getCert serverName with
  | none => none
  | some c =>
    some { sessionTicketsDisabled := true, certificates := [c],
           nextProtos := ["http/1.1"] }

/-- Embedding of the `GetConfigForClient` callback in `Attacker.HTTPSTLSDial`
after the upstream handshake finished with negotiated ALPN protocol
`negotiatedProtocol` (the value received on `serverTLSStateChan`): start from
an empty `nextProtos`, prepend the negotiated protocol when non-empty, and
issue a leaf for `chi.ServerName`. -/
def dialFirstGetConfigForClient (getCert : String → Option String)
    (serverName : String) (negotiatedProtocol : String) : Option TLSConfigModel :=
  let nextProtos : List String := []
  let nextProtos := if negotiatedProtocol ≠ "" then
      [negotiatedProtocol] ++ nextProtos
    else
      nextProtos
  match getCert serverName with
  | none => none
  | some c =>
    some { sessionTicketsDisabled := true, certificates := [c],
           nextProtos := nextProtos }

/-! ## proxy/internal/types: Flow, Request, Response

`Request.URL` is represented by the fields the pipeline consults (`Host`,
`Scheme`); byte-slice bodies are `Option (List Nat)` (`none` = nil slice). -/

/-- The fields of `types.Request` used by the pipeline. -/
structure RequestModel where
  method : String
  host : String
  scheme : String
  header : List (String × String)
  /-- `Request.Body` — nil until the pipeline buffers the body -/
  body : Option (List Nat)
  deriving Repr, DecidableEq

/-- The fields of `types.Response`. -/
structure ResponseModel where
  statusCode : Nat
  header : List (String × String)
  /-- `Response.Body` — nil vs. set is significant (`Responseheaders` early check) -/
  body : Option (List Nat)
  bodyReader : Option (List Nat)
  close : Bool
  deriving Repr, DecidableEq

/-- The fields of `types.Flow` used by the pipeline. -/
structure FlowModel where
  request : RequestModel
  response : Option ResponseModel
  stream : Bool
  useSeparateClient : Bool
  deriving Repr, DecidableEq

/-- Embedding of `Flow.Finish`: `close(f.done)`.  Input: whether the `done`
channel is already closed; output `some true` = the channel is now closed,
`none` = panic (`close` of an already-closed channel). -/
def flowFinish (doneClosed : Bool) : Option Bool :=
  if doneClosed then none else some true

/-- An addon's hooks, as pure flow (and reader) transformers.  Stream
modifiers receive and return an `io.Reader` (`none` = nil reader). -/
structure AddonModel where
  onRequestheaders : FlowModel → FlowModel
  onRequest : FlowModel → FlowModel
  onResponseheaders : FlowModel → FlowModel
  onResponse : FlowModel → FlowModel
  onStreamRequestModifier : FlowModel → Option (List Nat) → Option (List Nat)
  onStreamResponseModifier : FlowModel → Option (List Nat) → Option (List Nat)

/-! ## proxy/internal/attacker: the request pipeline (`Attacker.Attack`) -/

/-- Events recorded while `Attacker.Attack` runs. -/
inductive AttackEvent where
  /-- addon `i`'s `Requestheaders(f)` was invoked -/
  | requestheadersHook (i : Nat)
  /-- addon `i`'s `Request(f)` was invoked -/
  | requestHook (i : Nat)
  /-- addon `i`'s `Responseheaders(f)` was invoked -/
  | responseheadersHook (i : Nat)
  /-- addon `i`'s `Response(f)` was invoked -/
  | responseHook (i : Nat)
  /-- `ConnContext.DialFn` was invoked -/
  | serverDial
  /-- `http.NewRequestWithContext` built the upstream request -/
  | buildProxyRequest
  /-- `client.Do(proxyReq)` executed the upstream request -/
  | upstreamDo
  /-- `res.WriteHeader(status)` on an error path -/
  | writeHeader (status : Nat)
  /-- `replyToClient` wrote headers, status and body to the client -/
  | reply (header : List (String × String)) (statusCode : Nat) (written : List Nat)
  /-- the deferred `f.Finish()` ran -/
  | finish
  deriving Repr, DecidableEq

/-- What one `replyToClient` call writes to the client. -/
structure ReplyModel where
  header : List (String × String)
  statusCode : Nat
  written : List Nat
  deriving Repr, DecidableEq

/-- Embedding of `Attacker.replyToClient(res, response, body, logger)`:
copy `response.Header`, add `Connection: close` iff `response.Close`, write
the status, then write, in order: the `body` reader (if non-nil), then
`response.BodyReader` (if non-nil), then `response.Body` (if non-empty). -/
def replyToClient (response : ResponseModel) (body : Option (List Nat)) : ReplyModel :=
  { header := response.header ++ (if response.close then [("Connection", "close")] else []),
    statusCode := response.statusCode,
    written :=
      (match body with | some b => b | none => []) ++
      (match response.bodyReader with | some b => b | none => []) ++
      (if 0 < (response.body.getD []).length then response.body.getD [] else []) }

/-- Stands in for dereferencing a nil `*Response`; unreachable from `attack`:
the flow's response is non-nil whenever `replyToClient` is reached. -/
def nilResponse : ResponseModel :=
  { statusCode := 0, header := [], body := none, bodyReader := none, close := false }

/-- The `reply` event produced by a `replyToClient(res, f.Response, body, …)` call. -/
def replyEventOf (r : Option ResponseModel) (body : Option (List Nat)) : AttackEvent :=
  let m := replyToClient (r.getD nilResponse) body
  .reply m.header m.statusCode m.written

/-- Embedding of the loop in `Attacker.handleRequestAddons`, carrying the
index of the next addon: invoke `Requestheaders`, stop as soon as the flow's
response is non-nil.  Returns (final flow, indices invoked, early?). -/
def runRequestheadersFrom : Nat → List AddonModel → FlowModel →
    FlowModel × List Nat × Bool
  | _, [], f => (f, [], false)
  | i, a :: rest, f =>
    let f' := a.onRequestheaders f
    if f'.response.isSome then
      (f', [i], true)
    else
      let r := runRequestheadersFrom (i + 1) rest f'
      (r.1, i :: r.2.1, r.2.2)

/-- Embedding of `Attacker.handleRequestAddons`. -/
def handleRequestAddons (addons : List AddonModel) (f : FlowModel) :
    FlowModel × List Nat × Bool :=
  runRequestheadersFrom 0 addons f

/-- Embedding of the `Request` addon loop in `Attacker.readRequestBody`:
invoke `Request`, stop as soon as the flow's response is non-nil. -/
def runRequestHooksFrom : Nat → List AddonModel → FlowModel → FlowModel × List Nat
  | _, [], f => (f, [])
  | i, a :: rest, f =>
    let f' := a.onRequest f
    if f'.response.isSome then
      (f', [i])
    else
      let r := runRequestHooksFrom (i + 1) rest f'
      (r.1, i :: r.2)

/-- Embedding of the `Response` addon loop in `Attacker.readResponseBody`
(no early exit in the source). -/
def runResponseHooksFrom : Nat → List AddonModel → FlowModel → FlowModel × List Nat
  | _, [], f => (f, [])
  | i, a :: rest, f =>
    let f' := a.onResponse f
    let r := runResponseHooksFrom (i + 1) rest f'
    (r.1, i :: r.2)

/-- Embedding of the loop in `Attacker.handleResponseHeadersAddons`: invoke
`Responseheaders`, stop as soon as `f.Response.Body` is non-nil. -/
def runResponseheadersFrom : Nat → List AddonModel → FlowModel →
    FlowModel × List Nat × Bool
  | _, [], f => (f, [], false)
  | i, a :: rest, f =>
    let f' := a.onResponseheaders f
    if (match f'.response with | some resp => resp.body.isSome | none => false) then
      (f', [i], true)
    else
      let r := runResponseheadersFrom (i + 1) rest f'
      (r.1, i :: r.2.1, r.2.2)

/-- Embedding of `Attacker.handleResponseHeadersAddons`. -/
def handleResponseHeadersAddons (addons : List AddonModel) (f : FlowModel) :
    FlowModel × List Nat × Bool :=
  runResponseheadersFrom 0 addons f

/-- Result of `readRequestBody` / `readResponseBody`: the updated flow, the
returned `io.Reader` (`none` = nil reader), and the indices of the addons
whose `Request` (resp. `Response`) hook ran.  The source also returns an `ok`
flag that is false only on a read error; error-free readers are modelled, so
that branch is dead here. -/
structure ReadBodyResult where
  flow : FlowModel
  reader : Option (List Nat)
  hookEvents : List Nat
  deriving Repr

/-- Embedding of `Attacker.readRequestBody` for a request body whose total
content is `bodyBytes`: pass through when already streaming; buffer up to
`threshold` bytes; on reaching the threshold flip `Flow.Stream` and return
prefix-plus-remainder, skipping the `Request` hooks; otherwise store the
buffer in `Request.Body`, fire the `Request` hooks (stopping early if one
sets the response — then return a nil reader), and finally return
`bytes.NewReader(f.Request.Body)`. -/
def readRequestBody (addons : List AddonModel) (f : FlowModel)
    (bodyBytes : List Nat) (threshold : Nat) : ReadBodyResult :=
  if f.stream then
    { flow := f, reader := some bodyBytes, hookEvents := [] }
  else
    match ReaderToBuffer bodyBytes threshold with
    | (none, r) =>
      { flow := { f with stream := true }, reader := r, hookEvents := [] }
    | (some buf, _) =>
      let f1 := { f with request := { f.request with body := some buf } }
      let r := runRequestHooksFrom 0 addons f1
      if r.1.response.isSome then
        { flow := r.1, reader := none, hookEvents := r.2 }
      else
        { flow := r.1, reader := some (r.1.request.body.getD []), hookEvents := r.2 }

/-- Embedding of `Attacker.readResponseBody` for a response body whose total
content is `bodyBytes`: pass through when already streaming; buffer up to
`threshold` bytes; on reaching the threshold flip `Flow.Stream` and return
prefix-plus-remainder, skipping the `Response` hooks; otherwise store the
buffer in `Response.Body`, fire every `Response` hook, and return the (nil)
reader `ReaderToBuffer` produced. -/
def readResponseBody (addons : List AddonModel) (f : FlowModel)
    (bodyBytes : List Nat) (threshold : Nat) : ReadBodyResult :=
  if f.stream then
    { flow := f, reader := some bodyBytes, hookEvents := [] }
  else
    match ReaderToBuffer bodyBytes threshold with
    | (none, r) =>
      { flow := { f with stream := true }, reader := r, hookEvents := [] }
    | (some buf, r) =>
      let f1 := { f with response :=
        match f.response with
        | some resp => some { resp with body := some buf }
        | none => none }
      let r2 := runResponseHooksFrom 0 addons f1
      { flow := r2.1, reader := r, hookEvents := r2.2 }

/-- Fold of the `StreamRequestModifier` loop in `Attacker.Attack`. -/
def applyStreamRequestModifiers : List AddonModel → FlowModel →
    Option (List Nat) → Option (List Nat)
  | [], _, b => b
  | a :: rest, f, b => applyStreamRequestModifiers rest f (a.onStreamRequestModifier f b)

/-- Fold of the `StreamResponseModifier` loop in `Attacker.Attack`. -/
def applyStreamResponseModifiers : List AddonModel → FlowModel →
    Option (List Nat) → Option (List Nat)
  | [], _, b => b
  | a :: rest, f, b => applyStreamResponseModifiers rest f (a.onStreamResponseModifier f b)

/-- The upstream request built by `executeProxyRequest`
(`http.NewRequestWithContext` plus the header-copy loop). -/
structure ProxyRequestModel where
  method : String
  host : String
  scheme : String
  header : List (String × String)
  body : Option (List Nat)
  deriving Repr, DecidableEq

/-- The parts of the upstream `*http.Response` that `Attack` consumes. -/
structure ProxyResponseModel where
  statusCode : Nat
  header : List (String × String)
  close : Bool
  body : List Nat
  deriving Repr, DecidableEq

/-- Environment for one pipeline run: the outcome of `ConnContext.DialFn`
(`none` = success, `some msg` = error with message `msg`) and of executing an
upstream request via any of the HTTP clients (`none` = transport error). -/
structure UpstreamModel where
  dialResult : Option String
  run : ProxyRequestModel → Option ProxyResponseModel

/-- The fields of `conn.Context` the pipeline reads or writes. -/
structure ConnContextModel where
  serverConnPresent : Bool
  dialFnPresent : Bool
  closeAfterResponse : Bool
  flowCount : Nat
  deriving Repr, DecidableEq

/-- `strings.Contains(s, sub)` on character lists. -/
def listContainsSub (s sub : List Char) : Bool :=
  sub.isPrefixOf s ||
    match s with
    | [] => false
    | _ :: t => listContainsSub t sub

/-- `strings.Contains(err.Error(), "Proxy Authentication Required")`. -/
def mentionsProxyAuth (msg : String) : Bool :=
  listContainsSub msg.toList "Proxy Authentication Required".toList

/-- Outcome of `executeProxyRequest`: an upstream response, or an error after
the appropriate status was already written. -/
inductive ExecOutcome where
  | ok (res : ProxyResponseModel)
  | fail
  deriving Repr

/-- Embedding of `Attacker.executeProxyRequest`: build the upstream request
from the flow; use the separate main client when `Flow.UseSeparateClient` is
set or the URL host/scheme changed since the flow was created; otherwise dial
the upstream lazily when there is no server connection yet (mapping a dial
error to 407 when its message mentions proxy authentication, else 502) and
use the connection's client.  A transport error is answered with 502. -/
def executeProxyRequest (up : UpstreamModel) (connCtx : ConnContextModel)
    (f : FlowModel) (reqBody : Option (List Nat))
    (rawReqURLHost rawReqURLScheme : String) :
    ExecOutcome × ConnContextModel × List AttackEvent :=
  let proxyReq : ProxyRequestModel :=
    { method := f.request.method, host := f.request.host, scheme := f.request.scheme,
      header := f.request.header, body := reqBody }
  let useSeparateClient := f.useSeparateClient ||
    (rawReqURLHost != f.request.host || rawReqURLScheme != f.request.scheme)
  if useSeparateClient then
    match up.run proxyReq with
    | none => (.fail, connCtx, [.buildProxyRequest, .upstreamDo, .writeHeader 502])
    | some res => (.ok res, connCtx, [.buildProxyRequest, .upstreamDo])
  else if !connCtx.serverConnPresent && connCtx.dialFnPresent then
    match up.dialResult with
    | some msg =>
      (.fail, connCtx,
       [.buildProxyRequest, .serverDial,
        .writeHeader (if mentionsProxyAuth msg then 407 else 502)])
    | none =>
      let connCtx' := { connCtx with serverConnPresent := true }
      match up.run proxyReq with
      | none => (.fail, connCtx', [.buildProxyRequest, .serverDial, .upstreamDo, .writeHeader 502])
      | some res => (.ok res, connCtx', [.buildProxyRequest, .serverDial, .upstreamDo])
  else
    match up.run proxyReq with
    | none => (.fail, connCtx, [.buildProxyRequest, .upstreamDo, .writeHeader 502])
    | some res => (.ok res, connCtx, [.buildProxyRequest, .upstreamDo])

/-- Result of one `Attacker.Attack` run. -/
structure AttackResult where
  events : List AttackEvent
  flow : FlowModel
  connCtx : ConnContextModel

/-- The body of `Attacker.Attack` up to (excluding) the deferred
`f.Finish()`: construct the flow, record the raw URL host/scheme, fire
`Requestheaders` (short-circuit reply when an addon sets the response), read
the request body, fire `Request` when buffered (short-circuit reply), apply
stream-request modifiers, execute the upstream request, record
`CloseAfterResponse`, populate `Flow.Response`, fire `Responseheaders`
(short-circuit reply when an addon sets a body), read the response body,
apply stream-response modifiers, and reply to the client. -/
def attackBody (addons : List AddonModel) (up : UpstreamModel)
    (connCtx0 : ConnContextModel) (req : RequestModel) (reqBodyBytes : List Nat)
    (threshold : Nat) : AttackResult :=
  let f0 : FlowModel :=
    { request := req, response := none, stream := false, useSeparateClient := false }
  let connCtx := { connCtx0 with flowCount := connCtx0.flowCount + 1 }
  let rawReqURLHost := req.host
  let rawReqURLScheme := req.scheme
  let rh := handleRequestAddons addons f0
  let rhEvents := rh.2.1.map AttackEvent.requestheadersHook
  if rh.2.2 then
    { events := rhEvents ++ [replyEventOf rh.1.response none],
      flow := rh.1, connCtx := connCtx }
  else
    let r2 := readRequestBody addons rh.1 reqBodyBytes threshold
    let reqEvents := r2.hookEvents.map AttackEvent.requestHook
    if r2.flow.response.isSome then
      { events := rhEvents ++ reqEvents ++ [replyEventOf r2.flow.response none],
        flow := r2.flow, connCtx := connCtx }
    else
      let reqBody := applyStreamRequestModifiers addons r2.flow r2.reader
      match executeProxyRequest up connCtx r2.flow reqBody rawReqURLHost rawReqURLScheme with
      | (.fail, connCtx', execEvents) =>
        { events := rhEvents ++ reqEvents ++ execEvents,
          flow := r2.flow, connCtx := connCtx' }
      | (.ok pres, connCtx', execEvents) =>
        let connCtx'' :=
          if pres.close then { connCtx' with closeAfterResponse := true } else connCtx'
        let newResp : ResponseModel :=
          { statusCode := pres.statusCode, header := pres.header,
            body := none, bodyReader := none, close := pres.close }
        let f3 := { r2.flow with response := some newResp }
        let rh2 := handleResponseHeadersAddons addons f3
        let rh2Events := rh2.2.1.map AttackEvent.responseheadersHook
        if rh2.2.2 then
          { events := rhEvents ++ reqEvents ++ execEvents ++ rh2Events ++
              [replyEventOf rh2.1.response none],
            flow := rh2.1, connCtx := connCtx'' }
        else
          let r5 := readResponseBody addons rh2.1 pres.body threshold
          let resEvents := r5.hookEvents.map AttackEvent.responseHook
          let resBody := applyStreamResponseModifiers addons r5.flow r5.reader
          { events := rhEvents ++ reqEvents ++ execEvents ++ rh2Events ++ resEvents ++
              [replyEventOf r5.flow.response resBody],
            flow := r5.flow, connCtx := connCtx'' }

/-- Embedding of `Attacker.Attack`: the body above followed by the deferred
`f.Finish()`. -/
def attack (addons : List AddonModel) (up : UpstreamModel)
    (connCtx0 : ConnContextModel) (req : RequestModel) (reqBodyBytes : List Nat)
    (threshold : Nat) : AttackResult :=
  let r := attackBody addons up connCtx0 req reqBodyBytes threshold
  { r with events := r.events ++ [.finish] }

/-! ## internal/helper/proxy.go: `GetProxyConn`, http-proxy case

The deterministic data flow of `GetProxyConn` for a proxy URL of scheme
`http`, after the TCP dial to the proxy succeeded and the CONNECT response
was read within the timeout.  `userinfo` is `proxyURL.User.String()` when
`proxyURL.User != nil` (`none` otherwise); `resp` is the parsed response. -/

/-- The CONNECT request `GetProxyConn` writes to the proxy. -/
structure ConnectRequestModel where
  method : String
  /-- `URL.Opaque` -/
  urlOpaque : String
  host : String
  header : List (String × String)
  deriving Repr, DecidableEq

/-- The CONNECT request construction in `GetProxyConn`: method `CONNECT`,
opaque URL and `Host` both set to the target address, and a
`Proxy-Authorization: Basic base64(userinfo)` header iff the proxy URL
carries userinfo. -/
def mkConnectRequest (userinfo : Option String) (address : String) : ConnectRequestModel :=
  { method := "CONNECT", urlOpaque := address, host := address,
    header :=
      match userinfo with
      | none => []
      | some ui => [("Proxy-Authorization", "Basic " ++ base64EncodeString ui)] }

/-- The parsed CONNECT response: `resp.StatusCode` and `resp.Status`. -/
structure ConnectResponseModel where
  statusCode : Nat
  status : String
  deriving Repr, DecidableEq

/-- What `GetProxyConn` returns in the http-proxy case. -/
inductive ProxyConnResult where
  /-- the raw socket is returned to the caller -/
  | conn
  | err (msg : String)
  deriving Repr, DecidableEq

/-- Outcome of the http-proxy CONNECT exchange. -/
structure ProxyConnOutcome where
  request : ConnectRequestModel
  result : ProxyConnResult
  /-- the socket was closed before returning -/
  connClosed : Bool
  deriving Repr, DecidableEq

/-- Embedding of the http-scheme CONNECT exchange of `helper.GetProxyConn`:
send the CONNECT request; if `resp.StatusCode != 200`, close the socket and
return the part of `resp.Status` after the first space as the error (or
`unknown status code` when there is no space); otherwise return the socket. -/
def getProxyConnHTTP (userinfo : Option String) (address : String)
    (resp : ConnectResponseModel) : ProxyConnOutcome :=
  let req := mkConnectRequest userinfo address
  if resp.statusCode ≠ 200 then
    match cutAtSpace resp.status.toList with
    | none => { request := req, result := .err "unknown status code", connClosed := true }
    | some cut => { request := req, result := .err (String.mk cut.2), connClosed := true }
  else
    { request := req, result := .conn, connClosed := false }

/-! ## proxy/entry.go: request routing (`entry.ServeHTTP`) -/

/-- The request fields `entry.ServeHTTP` routes on. -/
structure EntryRequest where
  method : String
  /-- `req.URL.IsAbs()` -/
  isAbs : Bool
  /-- `req.URL.Host` -/
  host : String
  deriving Repr, DecidableEq

/-- Events recorded while `entry.ServeHTTP` routes one request. -/
inductive ServeEvent where
  /-- proxy authentication failed: `httpError` wrote a 407 -/
  | authReject
  /-- the CONNECT handler took over -/
  | connectHandled
  /-- addon `i`'s `AccessProxyServer(req, res)` was invoked -/
  | accessProxyServer (i : Nat)
  /-- the default direct-request reply was written -/
  | directReply (status : Nat) (body : String)
  /-- `InitHTTPDialFn` installed the lazy HTTP dial function -/
  | initHTTPDialFn
  /-- `Attack` ran the pipeline -/
  | attackInvoked
  deriving Repr, DecidableEq

/-- Embedding of `entry.ServeHTTP`.  `auth` is `none` when no `authProxy` is
configured, `some ok` for the validator's verdict.  `addonWrites i` tells
whether addon `i`'s `AccessProxyServer` writes to the `ResponseCheck`-wrapped
writer (the writer's `Wrote` flag is the disjunction).  Routing: failed auth
→ 407; `CONNECT` → CONNECT handler; non-absolute URL or empty host → invoke
every addon's `AccessProxyServer` and, when none wrote, reply 400 with the
fixed body; otherwise install the lazy dial function and run the pipeline. -/
def entryServeHTTP (auth : Option Bool) (addonWrites : List Bool)
    (req : EntryRequest) : List ServeEvent :=
  if auth = some false then
    [.authReject]
  else if req.method = "CONNECT" then
    [.connectHandled]
  else if !req.isAbs || req.host = "" then
    (List.range addonWrites.length).map ServeEvent.accessProxyServer ++
      (if addonWrites.any id then []
       else [.directReply 400 "This is a proxy server, direct requests are not allowed"])
  else
    [.initHTTPDialFn, .attackInvoked]

/-! ## proxy/entry.go: CONNECT handler (`entry.handleConnect`) -/

/-- Events recorded while `entry.handleConnect` runs. -/
inductive ConnectEvent where
  /-- addon `i`'s `Requestheaders(f)` was invoked -/
  | requestheadersHook (i : Nat)
  /-- addon `i`'s `Responseheaders(f)` was invoked -/
  | responseheadersHook (i : Nat)
  /-- `res.WriteHeader(status)` on an error path -/
  | writeHeader (status : Nat)
  /-- `HTTP/1.1 200 Connection Established` was written to the hijacked socket -/
  | tunnelEstablished
  /-- the upstream connection was dialed -/
  | serverDial
  /-- opaque bidirectional `transfer` between client and server -/
  | transfer
  /-- `Attacker.HTTPSTLSDial` took over (dial-first MITM) -/
  | mitmDialFirst
  /-- `Attacker.HTTPSLazyAttack` took over (lazy MITM) -/
  | mitmLazy
  /-- `helper.IsTLS` indexed out of bounds (never reachable: `Peek(3)` either
  errs or yields 3 bytes) -/
  | isTLSPanic
  /-- the deferred `f.Finish()` ran -/
  | finish
  deriving Repr, DecidableEq

/-- The entry loop `for addon { addon.Requestheaders(f) }` in
`handleConnect` — no early exit, unlike the attacker's loop. -/
def runRequestheadersAllFrom : Nat → List AddonModel → FlowModel → FlowModel × List Nat
  | _, [], f => (f, [])
  | i, a :: rest, f =>
    let f' := a.onRequestheaders f
    let r := runRequestheadersAllFrom (i + 1) rest f'
    (r.1, i :: r.2)

/-- The loop `for addon { addon.Responseheaders(f) }` in
`establishConnection` — no early exit. -/
def runResponseheadersAllFrom : Nat → List AddonModel → FlowModel → FlowModel × List Nat
  | _, [], f => (f, [])
  | i, a :: rest, f =>
    let f' := a.onResponseheaders f
    let r := runResponseheadersAllFrom (i + 1) rest f'
    (r.1, i :: r.2)

/-- Environment of one `handleConnect` run: the branch conditions and the
outcomes of its effectful steps. -/
structure ConnectOracles where
  /-- `proxy.shouldIntercept == nil || proxy.shouldIntercept(req)` -/
  shouldIntercept : Bool
  /-- `f.ConnContext.ClientConn.UpstreamCert` -/
  upstreamCert : Bool
  /-- hijacking the client connection succeeds -/
  hijackOk : Bool
  /-- writing `200 Connection Established` succeeds -/
  writeEstablishedOk : Bool
  /-- the upstream dial (`GetUpstreamConn` / `HTTPSDial`) succeeds -/
  dialOk : Bool
  /-- `Peek(3)` on the wrapped client socket: `none` = error; on success
  `bufio` returns exactly the 3 requested bytes -/
  peek : Option (Nat × Nat × Nat)

/-- Embedding of `entry.establishConnection`: hijack (on failure write 502
and abort), write the `200 Connection Established` line (on failure close and
abort), synthesize the 200 response on the flow and fire every addon's
`Responseheaders`.  Returns (success?, flow, events). -/
def establishConnection (addons : List AddonModel) (o : ConnectOracles)
    (f : FlowModel) : Bool × FlowModel × List ConnectEvent :=
  if !o.hijackOk then
    (false, f, [.writeHeader 502])
  else if !o.writeEstablishedOk then
    (false, f, [])
  else
    let estResp : ResponseModel :=
      { statusCode := 200, header := [], body := none, bodyReader := none, close := false }
    let f1 := { f with response := some estResp }
    let r := runResponseheadersAllFrom 0 addons f1
    (true, r.1, .tunnelEstablished :: r.2.map ConnectEvent.responseheadersHook)

/-- The `!shouldIntercept` branch of `handleConnect`
(`entry.directTransfer`): dial the upstream (502 on failure), establish the
client tunnel, then copy opaquely. -/
def directTransfer (addons : List AddonModel) (o : ConnectOracles)
    (f : FlowModel) : List ConnectEvent :=
  if !o.dialOk then
    [.serverDial, .writeHeader 502]
  else
    let e := establishConnection addons o f
    .serverDial :: e.2.2 ++ (if e.1 then [.transfer] else [])

/-- The TLS-or-not decision both attack paths make after a successful
`Peek(3)`: apply `helper.IsTLS` to the three peeked bytes. -/
def peekedIsTLS (b0 b1 b2 : Nat) : Option Bool :=
  IsTLS [b0, b1, b2]

/-- The dial-first branch of `handleConnect`
(`entry.httpsDialFirstAttack`): dial the upstream first (502 on failure),
establish the client tunnel, peek 3 bytes (abort on error), fall back to the
opaque tunnel when they are not a TLS record, otherwise mark the client TLS
and hand over to `HTTPSTLSDial`. -/
def httpsDialFirstAttack (addons : List AddonModel) (o : ConnectOracles)
    (f : FlowModel) : List ConnectEvent :=
  if !o.dialOk then
    [.serverDial, .writeHeader 502]
  else
    let e := establishConnection addons o f
    .serverDial :: e.2.2 ++
      (if e.1 then
        match o.peek with
        | none => []
        | some peeked =>
          match peekedIsTLS peeked.1 peeked.2.1 peeked.2.2 with
          | none => [.isTLSPanic]
          | some true => [.mitmDialFirst]
          | some false => [.transfer]
      else [])

/-- The lazy branch of `handleConnect` (`entry.httpsDialLazyAttack`):
establish the client tunnel first, peek 3 bytes (abort on error); when they
are not a TLS record, dial the upstream now and tunnel opaquely; otherwise
mark the client TLS and hand over to `HTTPSLazyAttack`. -/
def httpsDialLazyAttack (addons : List AddonModel) (o : ConnectOracles)
    (f : FlowModel) : List ConnectEvent :=
  let e := establishConnection addons o f
  e.2.2 ++
    (if e.1 then
      match o.peek with
      | none => []
      | some peeked =>
        match peekedIsTLS peeked.1 peeked.2.1 peeked.2.2 with
        | none => [.isTLSPanic]
        | some true => [.mitmLazy]
        | some false =>
          if !o.dialOk then [.serverDial]
          else [.serverDial, .transfer]
    else [])

/-- The body of `entry.handleConnect` up to (excluding) the deferred
`f.Finish()`: build the flow, record the intercept decision, fire every
addon's `Requestheaders`, then branch on intercept and
`ClientConn.UpstreamCert`. -/
def handleConnectBody (addons : List AddonModel) (o : ConnectOracles)
    (req : RequestModel) : List ConnectEvent :=
  let f0 : FlowModel :=
    { request := req, response := none, stream := false, useSeparateClient := false }
  let rh := runRequestheadersAllFrom 0 addons f0
  let rhEvents := rh.2.map ConnectEvent.requestheadersHook
  rhEvents ++
    (if !o.shouldIntercept then directTransfer addons o rh.1
     else if o.upstreamCert then httpsDialFirstAttack addons o rh.1
     else httpsDialLazyAttack addons o rh.1)

/-- Embedding of `entry.handleConnect`: the body followed by the deferred
`f.Finish()`. -/
def handleConnect (addons : List AddonModel) (o : ConnectOracles)
    (req : RequestModel) : List ConnectEvent :=
  handleConnectBody addons o req ++ [.finish]

/-! ## Concrete addon instances used by counterexamples and witnesses -/

/-- A concrete response an addon might install. -/
def exampleResponse : ResponseModel :=
  { statusCode := 200, header := [], body := some [42], bodyReader := none, close := false }

/-- An addon whose `Request` hook sets `Flow.Response` (short-circuit). -/
def addonSetResponseOnRequest : AddonModel :=
  { onRequestheaders := fun fl => fl,
    onRequest := fun fl => { fl with response := some exampleResponse },
    onResponseheaders := fun fl => fl,
    onResponse := fun fl => fl,
    onStreamRequestModifier := fun _ b => b,
    onStreamResponseModifier := fun _ b => b }

/-- An addon that leaves the flow untouched in every hook. -/
def addonIdentity : AddonModel :=
  { onRequestheaders := fun fl => fl,
    onRequest := fun fl => fl,
    onResponseheaders := fun fl => fl,
    onResponse := fun fl => fl,
    onStreamRequestModifier := fun _ b => b,
    onStreamResponseModifier := fun _ b => b }

/-- An addon whose `Requestheaders` hook sets `Flow.Response`. -/
def addonSetResponseOnRequestheaders : AddonModel :=
  { onRequestheaders := fun fl => { fl with response := some exampleResponse },
    onRequest := fun fl => fl,
    onResponseheaders := fun fl => fl,
    onResponse := fun fl => fl,
    onStreamRequestModifier := fun _ b => b,
    onStreamResponseModifier := fun _ b => b }

/-- A concrete request for counterexamples and witnesses. -/
def exampleRequest : RequestModel :=
  { method := "GET", host := "example.com:443", scheme := "https", header := [], body := none }

/-- A fresh flow over `exampleRequest`, as `Attack` constructs it. -/
def exampleFlow : FlowModel :=
  { request := exampleRequest, response := none, stream := false, useSeparateClient := false }

/-- A concrete environment: dial succeeds, the upstream answers 200 with body
`[10, 20]`. -/
def exampleUpstream : UpstreamModel :=
  { dialResult := none,
    run := fun _ => some { statusCode := 200, header := [], close := false, body := [10, 20] } }

/-- A concrete connection context before the first request: no server
connection yet, a lazy dial function installed. -/
def exampleConnCtx : ConnContextModel :=
  { serverConnPresent := false, dialFnPresent := true, closeAfterResponse := false,
    flowCount := 0 }

/-! # Theorems -/

/-- Below the limit, `ReaderToBuffer` buffers everything. -/
theorem readerToBuffer_small (b : List Nat) (n : Nat) (h : b.length < n) :
    ReaderToBuffer b n = (some b, none) := by
  have htake : b.take n = b := List.take_of_length_le (le_of_lt h)
  have hne : (b.length == n) = false := by
    simp only [beq_eq_false_iff_ne]
    omega
  simp [ReaderToBuffer, htake, hne]

/-- At or above the limit, `ReaderToBuffer` yields no buffer and a reader
whose content (buffered prefix plus remainder) is the original sequence. -/
theorem readerToBuffer_large (b : List Nat) (n : Nat) (h : n ≤ b.length) :
    ReaderToBuffer b n = (none, some b) := by
  have hlen : (b.take n).length = n := by
    rw [List.length_take]
    omega
  simp [ReaderToBuffer, hlen]

/-- **C4.** For every reader whose total content is a finite byte sequence `b`
and every limit `n`: if `len b < n` then `ReaderToBuffer` returns the buffered
bytes `b` and a nil reader; if `len b ≥ n` it returns a nil buffer and a
reader whose content (prefix plus remainder) is exactly the original `b`. -/
theorem c4_reader_to_buffer (b : List Nat) (n : Nat) :
    (b.length < n → ReaderToBuffer b n = (some b, none)) ∧
    (n ≤ b.length → ReaderToBuffer b n = (none, some b)) :=
  ⟨readerToBuffer_small b n, readerToBuffer_large b n⟩

/-- Witness for C4 at concrete inputs. -/
theorem c4_reader_to_buffer_witness :
    (([1, 2] : List Nat).length < 5 ∧ ReaderToBuffer [1, 2] 5 = (some [1, 2], none)) ∧
    (3 ≤ ([7, 8, 9] : List Nat).length ∧ ReaderToBuffer [7, 8, 9] 3 = (none, some [7, 8, 9])) :=
  ⟨⟨by decide, (c4_reader_to_buffer [1, 2] 5).1 (by decide)⟩,
   ⟨by decide, (c4_reader_to_buffer [7, 8, 9] 3).2 (by decide)⟩⟩

/-- **C5.** In the reply phase the byte sequence written to the client is the
concatenation, in this fixed order, of the pipeline's streaming body reader
(if present), then `Response.BodyReader` (if present), then the buffered
`Response.Body` bytes; and the `Connection: close` header is appended iff
`Response.Close` is true. -/
theorem c5_reply_order (response : ResponseModel) (body : Option (List Nat)) :
    (replyToClient response body).written =
      body.getD [] ++ response.bodyReader.getD [] ++ response.body.getD [] ∧
    (replyToClient response body).header =
      response.header ++ (if response.close then [("Connection", "close")] else []) ∧
    (replyToClient response body).statusCode = response.statusCode := by
  have hguard : ∀ l : Option (List Nat),
      (if 0 < (l.getD []).length then l.getD [] else []) = l.getD [] := by
    rintro (_ | (_ | ⟨x, xs⟩)) <;> simp
  refine ⟨?_, rfl, rfl⟩
  show (match body with | some b => b | none => []) ++ _ ++ _ = _
  rcases body with _ | b <;> rcases hbr : response.bodyReader with _ | br <;>
    simp [replyToClient, hbr, hguard]

/-- **C2.** The lazy-MITM client-side TLS configuration offers exactly
`NextProtos = ["http/1.1"]` for every ClientHello, and the dial-first
configuration carries exactly the ALPN protocol the upstream handshake
negotiated: `h2` stays `h2`, `http/1.1` stays `http/1.1` (and, when the
upstream negotiated nothing, no ALPN protocol is offered, which standard
clients fall back from to HTTP/1.1). -/
theorem c2_alpn_mirroring (getCert : String → Option String) (serverName c : String)
    (h : getCert serverName = some c) :
    lazyGetConfigForClient getCert serverName =
      some { sessionTicketsDisabled := true, certificates := [c], nextProtos := ["http/1.1"] } ∧
    (∀ p, p ≠ "" → dialFirstGetConfigForClient getCert serverName p =
      some { sessionTicketsDisabled := true, certificates := [c], nextProtos := [p] }) ∧
    dialFirstGetConfigForClient getCert serverName "h2" =
      some { sessionTicketsDisabled := true, certificates := [c], nextProtos := ["h2"] } ∧
    dialFirstGetConfigForClient getCert serverName "http/1.1" =
      some { sessionTicketsDisabled := true, certificates := [c], nextProtos := ["http/1.1"] } ∧
    dialFirstGetConfigForClient getCert serverName "" =
      some { sessionTicketsDisabled := true, certificates := [c], nextProtos := [] } := by
  refine ⟨?_, ?_, ?_, ?_, ?_⟩
  · simp [lazyGetConfigForClient, h]
  · intro p hp
    simp [dialFirstGetConfigForClient, h, hp]
  · simp [dialFirstGetConfigForClient, h]
  · simp [dialFirstGetConfigForClient, h]
  · simp [dialFirstGetConfigForClient, h]

/-- Witness for C2 at a concrete certificate oracle. -/
theorem c2_alpn_mirroring_witness :
    lazyGetConfigForClient (fun _ => some "example.com") "example.com" =
      some { sessionTicketsDisabled := true, certificates := ["example.com"],
             nextProtos := ["http/1.1"] } ∧
    dialFirstGetConfigForClient (fun _ => some "example.com") "example.com" "h2" =
      some { sessionTicketsDisabled := true, certificates := ["example.com"],
             nextProtos := ["h2"] } :=
  ⟨(c2_alpn_mirroring (fun _ => some "example.com") "example.com" "example.com" rfl).1,
   (c2_alpn_mirroring (fun _ => some "example.com") "example.com" "example.com" rfl).2.2.1⟩

/-- `IsTLS` on a buffer of length ≥ 3 never panics and decides the TLS-record
signature. -/
theorem isTLS_three (b0 b1 b2 : Nat) (rest : List Nat) :
    IsTLS (b0 :: b1 :: b2 :: rest) = some (decide (b0 = 0x16 ∧ b1 = 0x03 ∧ b2 ≤ 0x03)) := by
  by_cases h0 : b0 = 0x16 <;> by_cases h1 : b1 = 0x03 <;> by_cases h2 : b2 ≤ 0x03 <;>
    simp [IsTLS, h0, h1, h2]

/-- `establishConnection` never records an `IsTLS` panic. -/
theorem isTLSPanic_not_mem_establish (addons : List AddonModel) (o : ConnectOracles)
    (f : FlowModel) : ConnectEvent.isTLSPanic ∉ (establishConnection addons o f).2.2 := by
  unfold establishConnection
  split
  · simp
  · split
    · simp
    · simp

/-- `directTransfer` never records an `IsTLS` panic. -/
theorem isTLSPanic_not_mem_directTransfer (addons : List AddonModel) (o : ConnectOracles)
    (f : FlowModel) : ConnectEvent.isTLSPanic ∉ directTransfer addons o f := by
  unfold directTransfer
  split
  · simp
  · intro hmem
    rcases List.mem_cons.mp hmem with h1 | h1
    · exact ConnectEvent.noConfusion h1
    · rcases List.mem_append.mp h1 with h2 | h3
      · exact isTLSPanic_not_mem_establish addons o f h2
      · revert h3
        split <;> simp

/-- After a successful `Peek(3)` both attack paths apply `IsTLS` to exactly
three bytes, so the out-of-bounds branch cannot be taken. -/
theorem peekedIsTLS_isSome (b0 b1 b2 : Nat) : (peekedIsTLS b0 b1 b2).isSome := by
  rw [peekedIsTLS, isTLS_three]
  rfl

/-- `httpsDialFirstAttack` never records an `IsTLS` panic. -/
theorem isTLSPanic_not_mem_dialFirst (addons : List AddonModel) (o : ConnectOracles)
    (f : FlowModel) : ConnectEvent.isTLSPanic ∉ httpsDialFirstAttack addons o f := by
  unfold httpsDialFirstAttack
  split
  · simp
  · intro hmem
    rcases List.mem_cons.mp hmem with h1 | h1
    · exact ConnectEvent.noConfusion h1
    · rcases List.mem_append.mp h1 with h2 | h3
      · exact isTLSPanic_not_mem_establish addons o f h2
      · revert h3
        split
        · rcases hpk : o.peek with _ | ⟨b0, b1, b2⟩
          · simp [hpk]
          · rcases hval : peekedIsTLS b0 b1 b2 with _ | b
            · have hs := peekedIsTLS_isSome b0 b1 b2
              rw [hval] at hs
              simp at hs
            · cases b <;> simp [hpk, hval]
        · simp

/-- `httpsDialLazyAttack` never records an `IsTLS` panic. -/
theorem isTLSPanic_not_mem_lazy (addons : List AddonModel) (o : ConnectOracles)
    (f : FlowModel) : ConnectEvent.isTLSPanic ∉ httpsDialLazyAttack addons o f := by
  unfold httpsDialLazyAttack
  intro hmem
  rcases List.mem_append.mp hmem with h2 | h3
  · exact isTLSPanic_not_mem_establish addons o f h2
  · revert h3
    split
    · rcases hpk : o.peek with _ | ⟨b0, b1, b2⟩
      · simp [hpk]
      · rcases hval : peekedIsTLS b0 b1 b2 with _ | b
        · have hs := peekedIsTLS_isSome b0 b1 b2
          rw [hval] at hs
          simp at hs
        · cases b
          · cases hd : o.dialOk <;> simp [hpk, hval, hd]
          · simp [hpk, hval]
    · simp

/-- **C9 (amended).** `IsTLS` on a buffer of length ≥ 3 returns exactly the
TLS-record-signature test; on a shorter buffer it panics (indexes out of
bounds) iff every byte present matches the signature prefix — an empty
buffer, `[0x16]`, or `[0x16, 0x03]` — and otherwise short-circuits to
`false`; and the proxy's CONNECT call sites (which peek exactly 3 bytes and
abort on peek error) can never reach the out-of-bounds branch. -/
theorem c9_istls :
    (∀ b0 b1 b2 : Nat, ∀ rest : List Nat, IsTLS (b0 :: b1 :: b2 :: rest) =
        some (decide (b0 = 0x16 ∧ b1 = 0x03 ∧ b2 ≤ 0x03))) ∧
    IsTLS [] = none ∧
    (∀ b0 : Nat, IsTLS [b0] = if b0 = 0x16 then none else some false) ∧
    (∀ b0 b1 : Nat, IsTLS [b0, b1] =
      if b0 = 0x16 ∧ b1 = 0x03 then none else some false) ∧
    (∀ (addons : List AddonModel) (o : ConnectOracles) (req : RequestModel),
      ConnectEvent.isTLSPanic ∉ handleConnect addons o req) := by
  refine ⟨isTLS_three, rfl, ?_, ?_, ?_⟩
  · intro b0
    by_cases h0 : b0 = 0x16 <;> simp [IsTLS, h0]
  · intro b0 b1
    by_cases h0 : b0 = 0x16 <;> by_cases h1 : b1 = 0x03 <;> simp [IsTLS, h0, h1]
  · intro addons o req
    unfold handleConnect handleConnectBody
    simp only [List.mem_append, List.mem_map, List.mem_singleton]
    rintro ((⟨i, _, hi⟩ | hbr) | hfin)
    · exact ConnectEvent.noConfusion hi
    · revert hbr
      split
      · exact isTLSPanic_not_mem_directTransfer addons o _
      · split
        · exact isTLSPanic_not_mem_dialFirst addons o _
        · exact isTLSPanic_not_mem_lazy addons o _
    · exact ConnectEvent.noConfusion hfin

/-- **C9 counterexample.** The claim "for every buffer shorter than 3 bytes
`IsTLS` indexes out of bounds" is false: on `[0x15]` the short-circuiting
`&&` returns `false` without touching `buf[1]` or `buf[2]`. -/
theorem c9_counterexample :
    ([0x15] : List Nat).length < 3 ∧ IsTLS [0x15] = some false ∧ IsTLS [0x15] ≠ none := by
  refine ⟨by decide, ?_, ?_⟩ <;> simp [IsTLS]

/-- **C6 (amended).** For an http-scheme upstream proxy the dialer sends a
CONNECT request whose target is the opaque URL and whose `Host` is the target
address, with `Proxy-Authorization: Basic base64(userinfo)` iff the proxy URL
carries userinfo; on a 200 response it returns the raw socket; on any
non-200 response — including other 2xx statuses — it closes the socket and
returns the reason phrase of the status line (the part after the first
space; `unknown status code` when there is none) as the error. -/
theorem c6_connect_exchange (userinfo : Option String) (address : String)
    (resp : ConnectResponseModel) :
    ((getProxyConnHTTP userinfo address resp).request.method = "CONNECT" ∧
     (getProxyConnHTTP userinfo address resp).request.urlOpaque = address ∧
     (getProxyConnHTTP userinfo address resp).request.host = address) ∧
    (userinfo = none → (getProxyConnHTTP userinfo address resp).request.header = []) ∧
    (∀ ui, userinfo = some ui →
      (getProxyConnHTTP userinfo address resp).request.header =
        [("Proxy-Authorization", "Basic " ++ base64EncodeString ui)]) ∧
    (resp.statusCode = 200 →
      (getProxyConnHTTP userinfo address resp).result = .conn ∧
      (getProxyConnHTTP userinfo address resp).connClosed = false) ∧
    (resp.statusCode ≠ 200 →
      (getProxyConnHTTP userinfo address resp).connClosed = true ∧
      ((∃ cut, cutAtSpace resp.status.toList = some cut ∧
          (getProxyConnHTTP userinfo address resp).result = .err (String.mk cut.2)) ∨
       (cutAtSpace resp.status.toList = none ∧
          (getProxyConnHTTP userinfo address resp).result = .err "unknown status code"))) := by
  have hreqEq : (getProxyConnHTTP userinfo address resp).request =
      mkConnectRequest userinfo address := by
    unfold getProxyConnHTTP
    split
    · split <;> rfl
    · rfl
  refine ⟨?_, ?_, ?_, ?_, ?_⟩
  · rw [hreqEq]
    exact ⟨rfl, rfl, rfl⟩
  · intro h
    rw [hreqEq, h]
    rfl
  · intro ui h
    rw [hreqEq, h]
    rfl
  · intro h
    unfold getProxyConnHTTP
    rw [if_neg (by omega)]
    exact ⟨rfl, rfl⟩
  · intro h
    unfold getProxyConnHTTP
    rw [if_pos h]
    rcases hcut : cutAtSpace resp.status.toList with _ | cut
    · exact ⟨rfl, Or.inr ⟨rfl, rfl⟩⟩
    · exact ⟨rfl, Or.inl ⟨cut, rfl, rfl⟩⟩

/-- Witness for C6 at concrete inputs: userinfo present, 200 response. -/
theorem c6_connect_exchange_witness :
    (getProxyConnHTTP (some "user:pass") "example.com:443" ⟨200, "200 OK"⟩).request.header =
      [("Proxy-Authorization", "Basic " ++ base64EncodeString "user:pass")] ∧
    (getProxyConnHTTP (some "user:pass") "example.com:443" ⟨200, "200 OK"⟩).result = .conn :=
  ⟨(c6_connect_exchange (some "user:pass") "example.com:443" ⟨200, "200 OK"⟩).2.2.1
      "user:pass" rfl,
   ((c6_connect_exchange (some "user:pass") "example.com:443" ⟨200, "200 OK"⟩).2.2.2.1
      rfl).1⟩

/-- **C6 counterexample.** The claim "on every 2xx response the dialer
returns the raw socket" is false: the code tests `StatusCode != 200`, so the
2xx status 201 closes the socket and returns the reason phrase `Created` as
the error. -/
theorem c6_counterexample :
    (200 ≤ 201 ∧ 201 < 300) ∧
    (getProxyConnHTTP none "example.com:443" ⟨201, "201 Created"⟩).result = .err "Created" ∧
    (getProxyConnHTTP none "example.com:443" ⟨201, "201 Created"⟩).connClosed = true := by
  refine ⟨by omega, ?_, ?_⟩ <;> rfl

/-- Client-side `Close` calls on an already-closed wrapper are no-ops that
return the saved error. -/
theorem wrapClientConnCloseSeq_closed (hasNotifier serverConnPresent : Bool)
    (st : WrapClientConnState) (hst : st.closed = true) (errs : List (Option String)) :
    wrapClientConnCloseSeq hasNotifier serverConnPresent st errs =
      errs.map (fun _ =>
        { state := st, notifiedClientDisconnected := false, closedServerConn := false,
          ret := st.closeErr }) := by
  induction errs with
  | nil => rfl
  | cons e rest ih =>
    simp [wrapClientConnCloseSeq, wrapClientConnClose, hst, ih]

/-- Server-side `Close` calls on an already-closed wrapper are no-ops that
return the saved error. -/
theorem wrapServerConnCloseSeq_closed (hasNotifier clientTLS closeAfterResponse : Bool)
    (st : WrapServerConnState) (hst : st.closed = true) (errs : List (Option String)) :
    wrapServerConnCloseSeq hasNotifier clientTLS closeAfterResponse st errs =
      errs.map (fun _ =>
        { state := st, notifiedServerDisconnected := false, clientAction := none,
          ret := st.closeErr }) := by
  induction errs with
  | nil => rfl
  | cons e rest ih =>
    simp [wrapServerConnCloseSeq, wrapServerConnClose, hst, ih]

/-- **C3.** For every wrapped client or server connection, `Close` is
idempotent and delivers its disconnect notification exactly once: the first
`Close` closes the underlying connection, fires `ClientDisconnected`
(resp. `ServerDisconnected`) exactly once and saves the close error; every
subsequent `Close` returns the saved error and fires no notification,
however many times `Close` is invoked. -/
theorem c3_close_idempotent :
    (∀ (serverPresent : Bool) (e : Option String) (rest : List (Option String)),
      (wrapClientConnCloseSeq true serverPresent WrapClientConnState.init (e :: rest)).head? =
        some { state := { closed := true, closeErr := e, closeChanClosed := true,
                          underlyingClosed := true },
               notifiedClientDisconnected := true, closedServerConn := serverPresent,
               ret := e } ∧
      (wrapClientConnCloseSeq true serverPresent WrapClientConnState.init (e :: rest)).tail =
        rest.map (fun _ =>
          { state := { closed := true, closeErr := e, closeChanClosed := true,
                       underlyingClosed := true },
            notifiedClientDisconnected := false, closedServerConn := false, ret := e }) ∧
      (wrapClientConnCloseSeq true serverPresent WrapClientConnState.init (e :: rest)).countP
          (fun eff => eff.notifiedClientDisconnected) = 1) ∧
    (∀ (clientTLS closeAfterResponse : Bool) (e : Option String) (rest : List (Option String)),
      (wrapServerConnCloseSeq true clientTLS closeAfterResponse WrapServerConnState.init
          (e :: rest)).head? =
        some { state := { closed := true, closeErr := e, underlyingClosed := true },
               notifiedServerDisconnected := true,
               clientAction := some (if !clientTLS then .halfCloseRead
                                     else if !closeAfterResponse then .fullClose
                                     else .nothing),
               ret := e } ∧
      (wrapServerConnCloseSeq true clientTLS closeAfterResponse WrapServerConnState.init
          (e :: rest)).tail =
        rest.map (fun _ =>
          { state := { closed := true, closeErr := e, underlyingClosed := true },
            notifiedServerDisconnected := false, clientAction := none, ret := e }) ∧
      (wrapServerConnCloseSeq true clientTLS closeAfterResponse WrapServerConnState.init
          (e :: rest)).countP
          (fun eff => eff.notifiedServerDisconnected) = 1) := by
  constructor
  · intro serverPresent e rest
    have hstep : wrapClientConnCloseSeq true serverPresent WrapClientConnState.init (e :: rest) =
        { state := { closed := true, closeErr := e, closeChanClosed := true,
                     underlyingClosed := true },
          notifiedClientDisconnected := true, closedServerConn := serverPresent,
          ret := e } ::
        rest.map (fun _ =>
          { state := { closed := true, closeErr := e, closeChanClosed := true,
                       underlyingClosed := true },
            notifiedClientDisconnected := false, closedServerConn := false, ret := e }) := by
      rw [wrapClientConnCloseSeq]
      rw [show wrapClientConnClose true serverPresent e WrapClientConnState.init =
        { state := { closed := true, closeErr := e, closeChanClosed := true,
                     underlyingClosed := true },
          notifiedClientDisconnected := true, closedServerConn := serverPresent,
          ret := e } from rfl]
      rw [wrapClientConnCloseSeq_closed true serverPresent _ rfl rest]
    rw [hstep]
    refine ⟨rfl, rfl, ?_⟩
    rw [List.countP_cons]
    simp [List.countP_eq_zero]
  · intro clientTLS closeAfterResponse e rest
    have hstep : wrapServerConnCloseSeq true clientTLS closeAfterResponse
        WrapServerConnState.init (e :: rest) =
        { state := { closed := true, closeErr := e, underlyingClosed := true },
          notifiedServerDisconnected := true,
          clientAction := some (if !clientTLS then .halfCloseRead
                                else if !closeAfterResponse then .fullClose
                                else .nothing),
          ret := e } ::
        rest.map (fun _ =>
          { state := { closed := true, closeErr := e, underlyingClosed := true },
            notifiedServerDisconnected := false, clientAction := none, ret := e }) := by
      rw [wrapServerConnCloseSeq]
      rw [show wrapServerConnClose true clientTLS closeAfterResponse e
        WrapServerConnState.init =
        { state := { closed := true, closeErr := e, underlyingClosed := true },
          notifiedServerDisconnected := true,
          clientAction := some (if !clientTLS then .halfCloseRead
                                else if !closeAfterResponse then .fullClose
                                else .nothing),
          ret := e } from rfl]
      rw [wrapServerConnCloseSeq_closed true clientTLS closeAfterResponse _ rfl rest]
    rw [hstep]
    refine ⟨rfl, rfl, ?_⟩
    rw [List.countP_cons]
    simp [List.countP_eq_zero]

/-- Witness for C3 at concrete close sequences (three calls each side). -/
theorem c3_close_idempotent_witness :
    (wrapClientConnCloseSeq true true WrapClientConnState.init
        [some "reset", none, some "x"]).countP
      (fun eff => eff.notifiedClientDisconnected) = 1 ∧
    (wrapServerConnCloseSeq true false true WrapServerConnState.init
        [none, some "y"]).countP
      (fun eff => eff.notifiedServerDisconnected) = 1 :=
  ⟨(c3_close_idempotent.1 true (some "reset") [none, some "x"]).2.2,
   (c3_close_idempotent.2 false true none [some "y"]).2.2⟩

/-- **C7 (amended).** For every request that passes proxy authentication
(or when none is configured) and is neither CONNECT nor an absolute-URL
request with a non-empty host: every registered addon's `AccessProxyServer`
is invoked in registration order, and if none of them writes a response the
proxy replies 400 with the exact body
`This is a proxy server, direct requests are not allowed`. -/
theorem c7_direct_request (auth : Option Bool) (addonWrites : List Bool)
    (req : EntryRequest) (hauth : auth ≠ some false) (hm : req.method ≠ "CONNECT")
    (hshape : req.isAbs = false ∨ req.host = "") :
    (∀ i, i < addonWrites.length →
      (entryServeHTTP auth addonWrites req).get? i = some (.accessProxyServer i)) ∧
    ((∀ w ∈ addonWrites, w = false) →
      entryServeHTTP auth addonWrites req =
        (List.range addonWrites.length).map ServeEvent.accessProxyServer ++
          [.directReply 400 "This is a proxy server, direct requests are not allowed"]) := by
  have hroute : entryServeHTTP auth addonWrites req =
      (List.range addonWrites.length).map ServeEvent.accessProxyServer ++
        (if addonWrites.any id then []
         else [.directReply 400 "This is a proxy server, direct requests are not allowed"]) := by
    unfold entryServeHTTP
    rw [if_neg hauth, if_neg hm, if_pos]
    rcases hshape with h | h <;> simp [h]
  refine ⟨?_, ?_⟩
  · intro i hi
    have hlen : i < (List.map ServeEvent.accessProxyServer
        (List.range addonWrites.length)).length := by
      simpa using hi
    rw [hroute, List.get?_eq_getElem?, List.getElem?_append_left hlen,
      List.getElem?_map, List.getElem?_range hi]
    rfl
  · intro hnone
    have hany : addonWrites.any id = false := by
      rw [List.any_eq_false]
      intro w hw
      simp [hnone w hw]
    rw [hroute, hany]
    simp

/-- Witness for C7: two silent addons, a relative-URL GET, no auth. -/
theorem c7_direct_request_witness :
    entryServeHTTP none [false, false] { method := "GET", isAbs := false, host := "" } =
      [.accessProxyServer 0, .accessProxyServer 1,
       .directReply 400 "This is a proxy server, direct requests are not allowed"] := by
  have h := (c7_direct_request none [false, false]
      { method := "GET", isAbs := false, host := "" }
      (by simp) (by simp) (Or.inl rfl)).2 (by decide)
  simpa using h

/-- **C7 counterexample.** The claim as stated quantifies over every request
reaching the proxy, but a request that fails the configured proxy
authentication is answered 407 before any addon's `AccessProxyServer` runs. -/
theorem c7_counterexample :
    entryServeHTTP (some false) [false] { method := "GET", isAbs := false, host := "" } =
      [.authReject] ∧
    ServeEvent.accessProxyServer 0 ∉
      entryServeHTTP (some false) [false] { method := "GET", isAbs := false, host := "" } := by
  refine ⟨rfl, by decide⟩

/-- When no `Request` hook installs a response or touches `Stream` /
`Request.Body`, the `Request` loop visits every addon in order and leaves
those fields unchanged. -/
theorem runRequestHooksFrom_benign (addons : List AddonModel) (i : Nat) (f : FlowModel)
    (hresp : f.response = none)
    (hadd : ∀ a ∈ addons, ∀ fl : FlowModel,
      (a.onRequest fl).response = fl.response ∧ (a.onRequest fl).stream = fl.stream ∧
      (a.onRequest fl).request.body = fl.request.body) :
    (runRequestHooksFrom i addons f).1.response = none ∧
    (runRequestHooksFrom i addons f).1.stream = f.stream ∧
    (runRequestHooksFrom i addons f).1.request.body = f.request.body ∧
    (runRequestHooksFrom i addons f).2 = List.range' i addons.length := by
  induction addons generalizing i f with
  | nil => simp [runRequestHooksFrom, hresp]
  | cons a rest ih =>
    have ha := hadd a (List.mem_cons_self a rest)
    have hresp' : (a.onRequest f).response = none := by rw [(ha f).1, hresp]
    have hrec := ih (i + 1) (a.onRequest f) hresp'
      (fun b hb => hadd b (List.mem_cons_of_mem a hb))
    rw [runRequestHooksFrom]
    simp only [hresp', Option.isSome_none, Bool.false_eq_true, if_false]
    refine ⟨hrec.1, ?_, ?_, ?_⟩
    · rw [hrec.2.1, (ha f).2.1]
    · rw [hrec.2.2.1, (ha f).2.2]
    · rw [List.length_cons, List.range'_succ i rest.length 1, hrec.2.2.2]

/-- The `Response` loop visits every addon in order (it has no early exit). -/
theorem runResponseHooksFrom_events (addons : List AddonModel) (i : Nat) (f : FlowModel) :
    (runResponseHooksFrom i addons f).2 = List.range' i addons.length := by
  induction addons generalizing i f with
  | nil => simp [runResponseHooksFrom]
  | cons a rest ih =>
    rw [runResponseHooksFrom]
    simp only [List.length_cons, List.range'_succ i rest.length 1]
    rw [ih (i + 1) (a.onResponse f)]

/-- When no `Response` hook touches `Stream` or the flow's response, the
`Response` loop leaves them unchanged. -/
theorem runResponseHooksFrom_benign (addons : List AddonModel) (i : Nat) (f : FlowModel)
    (hadd : ∀ a ∈ addons, ∀ fl : FlowModel,
      (a.onResponse fl).response = fl.response ∧ (a.onResponse fl).stream = fl.stream) :
    (runResponseHooksFrom i addons f).1.response = f.response ∧
    (runResponseHooksFrom i addons f).1.stream = f.stream := by
  induction addons generalizing i f with
  | nil => simp [runResponseHooksFrom]
  | cons a rest ih =>
    have ha := hadd a (List.mem_cons_self a rest)
    have hrec := ih (i + 1) (a.onResponse f)
      (fun b hb => hadd b (List.mem_cons_of_mem a hb))
    rw [runResponseHooksFrom]
    refine ⟨?_, ?_⟩
    · rw [hrec.1, (ha f).1]
    · rw [hrec.2, (ha f).2]

/-- **C1 (amended).** With threshold `n` and `Flow.Stream` false on entry to
the body read: a request body of fewer than `n` bytes is buffered into
`Request.Body`, `Stream` stays false, and (when no `Request` hook
short-circuits by setting `Flow.Response` or touches `Stream` /
`Request.Body`) every addon's `Request` hook runs in registration order and
the upstream body is the buffered bytes; a body of `n` or more bytes flips
`Stream` to true, makes the upstream body the buffered prefix concatenated
with the remaining reader (= the original bytes) and skips the `Request`
hooks entirely.  Symmetrically for response bodies, where the `Response`
hooks always run for every addon in the buffered case. -/
theorem c1_body_buffering :
    (∀ (addons : List AddonModel) (f : FlowModel) (body : List Nat) (n : Nat),
      f.stream = false → f.response = none → body.length < n →
      (∀ a ∈ addons, ∀ fl : FlowModel,
        (a.onRequest fl).response = fl.response ∧ (a.onRequest fl).stream = fl.stream ∧
        (a.onRequest fl).request.body = fl.request.body) →
      (readRequestBody addons f body n).flow.stream = false ∧
      (readRequestBody addons f body n).flow.request.body = some body ∧
      (readRequestBody addons f body n).hookEvents = List.range addons.length ∧
      (readRequestBody addons f body n).reader = some body) ∧
    (∀ (addons : List AddonModel) (f : FlowModel) (body : List Nat) (n : Nat),
      f.stream = false → n ≤ body.length →
      (readRequestBody addons f body n).flow = { f with stream := true } ∧
      (readRequestBody addons f body n).reader = some body ∧
      (readRequestBody addons f body n).hookEvents = []) ∧
    (∀ (addons : List AddonModel) (f : FlowModel) (resp : ResponseModel)
        (body : List Nat) (n : Nat),
      f.stream = false → f.response = some resp → body.length < n →
      (∀ a ∈ addons, ∀ fl : FlowModel,
        (a.onResponse fl).response = fl.response ∧ (a.onResponse fl).stream = fl.stream) →
      (readResponseBody addons f body n).flow.stream = false ∧
      (readResponseBody addons f body n).flow.response = some { resp with body := some body } ∧
      (readResponseBody addons f body n).hookEvents = List.range addons.length ∧
      (readResponseBody addons f body n).reader = none) ∧
    (∀ (addons : List AddonModel) (f : FlowModel) (body : List Nat) (n : Nat),
      f.stream = false → n ≤ body.length →
      (readResponseBody addons f body n).flow = { f with stream := true } ∧
      (readResponseBody addons f body n).reader = some body ∧
      (readResponseBody addons f body n).hookEvents = []) := by
  refine ⟨?_, ?_, ?_, ?_⟩
  · intro addons f body n hstream hresp hlen hadd
    have hread : readRequestBody addons f body n =
        (let f1 := { f with request := { f.request with body := some body } }
         let r := runRequestHooksFrom 0 addons f1
         if r.1.response.isSome then
           { flow := r.1, reader := none, hookEvents := r.2 }
         else
           { flow := r.1, reader := some (r.1.request.body.getD []), hookEvents := r.2 }) := by
      unfold readRequestBody
      rw [if_neg (by simp [hstream]), readerToBuffer_small body n hlen]
    set f1 : FlowModel := { f with request := { f.request with body := some body } } with hf1
    have hb := runRequestHooksFrom_benign addons 0 f1 (by simp [hf1, hresp]) hadd
    rw [hread]
    simp only [hb.1, Option.isSome_none, Bool.false_eq_true, if_false]
    refine ⟨?_, ?_, ?_, ?_⟩
    · rw [hb.2.1]
      exact hstream
    · exact hb.2.2.1
    · rw [hb.2.2.2, List.range_eq_range']
    · rw [hb.2.2.1]
      exact rfl
  · intro addons f body n hstream hlen
    have hread : readRequestBody addons f body n =
        { flow := { f with stream := true }, reader := some body, hookEvents := [] } := by
      unfold readRequestBody
      rw [if_neg (by simp [hstream]), readerToBuffer_large body n hlen]
    rw [hread]
    exact ⟨rfl, rfl, rfl⟩
  · intro addons f resp body n hstream hresp hlen hadd
    have hread : readResponseBody addons f body n =
        (let f1 := { f with response := some { resp with body := some body } }
         let r2 := runResponseHooksFrom 0 addons f1
         ({ flow := r2.1, reader := none, hookEvents := r2.2 } : ReadBodyResult)) := by
      unfold readResponseBody
      rw [if_neg (by simp [hstream]), readerToBuffer_small body n hlen, hresp]
    set f1 : FlowModel := { f with response := some { resp with body := some body } } with hf1
    have hb := runResponseHooksFrom_benign addons 0 f1 hadd
    rw [hread]
    refine ⟨?_, ?_, ?_, ?_⟩
    · show (runResponseHooksFrom 0 addons f1).1.stream = false
      rw [hb.2]
      exact hstream
    · show (runResponseHooksFrom 0 addons f1).1.response =
        some { resp with body := some body }
      exact hb.1
    · show (runResponseHooksFrom 0 addons f1).2 = List.range addons.length
      rw [runResponseHooksFrom_events, List.range_eq_range']
    · exact rfl
  · intro addons f body n hstream hlen
    have hread : readResponseBody addons f body n =
        { flow := { f with stream := true }, reader := some body, hookEvents := [] } := by
      unfold readResponseBody
      rw [if_neg (by simp [hstream]), readerToBuffer_large body n hlen]
    rw [hread]
    exact ⟨rfl, rfl, rfl⟩

/-- Witness for C1 at concrete inputs: one identity addon, a 2-byte body
under a threshold of 5, then a 3-byte body at threshold 3. -/
theorem c1_body_buffering_witness :
    ((readRequestBody [addonIdentity] exampleFlow [1, 2] 5).flow.stream = false ∧
     (readRequestBody [addonIdentity] exampleFlow [1, 2] 5).flow.request.body = some [1, 2] ∧
     (readRequestBody [addonIdentity] exampleFlow [1, 2] 5).hookEvents = List.range 1 ∧
     (readRequestBody [addonIdentity] exampleFlow [1, 2] 5).reader = some [1, 2]) ∧
    ((readRequestBody [addonIdentity] exampleFlow [7, 8, 9] 3).flow =
        { exampleFlow with stream := true } ∧
     (readRequestBody [addonIdentity] exampleFlow [7, 8, 9] 3).reader = some [7, 8, 9] ∧
     (readRequestBody [addonIdentity] exampleFlow [7, 8, 9] 3).hookEvents = []) := by
  have hben : ∀ a ∈ [addonIdentity], ∀ fl : FlowModel,
      (a.onRequest fl).response = fl.response ∧ (a.onRequest fl).stream = fl.stream ∧
      (a.onRequest fl).request.body = fl.request.body := by
    intro a ha fl
    rw [List.mem_singleton.mp ha]
    exact ⟨rfl, rfl, rfl⟩
  exact ⟨c1_body_buffering.1 [addonIdentity] exampleFlow [1, 2] 5 rfl rfl (by decide) hben,
         c1_body_buffering.2.1 [addonIdentity] exampleFlow [7, 8, 9] 3 rfl (by decide)⟩

/-- **C1 counterexample.** The claim "if the body source yields fewer than
`n` bytes … every addon's `Request` hook is invoked" is false: when the
first addon's `Request` hook sets `Flow.Response`, the loop stops and the
second addon's `Request` hook never runs (the body, 1 byte, is under the
threshold 5). -/
theorem c1_counterexample :
    ([1] : List Nat).length < 5 ∧
    (readRequestBody [addonSetResponseOnRequest, addonIdentity] exampleFlow [1] 5).hookEvents
      = [0] ∧
    (readRequestBody [addonSetResponseOnRequest, addonIdentity] exampleFlow [1] 5).hookEvents
      ≠ List.range 2 := by
  refine ⟨by decide, rfl, by decide⟩

/-- The `Requestheaders` loop visits an initial segment of the registration
order: its event list is `range' i k` for `k` addons, `k ≤ addons.length`. -/
theorem runRequestheadersFrom_events (addons : List AddonModel) (i : Nat) (f : FlowModel) :
    (runRequestheadersFrom i addons f).2.1 =
      List.range' i (runRequestheadersFrom i addons f).2.1.length ∧
    (runRequestheadersFrom i addons f).2.1.length ≤ addons.length := by
  induction addons generalizing i f with
  | nil => simp [runRequestheadersFrom]
  | cons a rest ih =>
    rw [runRequestheadersFrom]
    by_cases h : (a.onRequestheaders f).response.isSome
    · simp only [h, if_true]
      exact ⟨by simp [List.range'], by simp⟩
    · simp only [h, Bool.false_eq_true, if_false]
      have hr := ih (i + 1) (a.onRequestheaders f)
      refine ⟨?_, ?_⟩
      · simp only [List.length_cons, List.range'_succ]
        rw [← hr.1]
      · simp only [List.length_cons]
        omega

/-- When the `Requestheaders` loop reports an early exit, the final flow
carries a response; when it does not and the flow had none, it still has
none. -/
theorem runRequestheadersFrom_response (addons : List AddonModel) (i : Nat) (f : FlowModel) :
    ((runRequestheadersFrom i addons f).2.2 = true →
      (runRequestheadersFrom i addons f).1.response.isSome = true) ∧
    (f.response = none → (runRequestheadersFrom i addons f).2.2 = false →
      (runRequestheadersFrom i addons f).1.response = none) := by
  induction addons generalizing i f with
  | nil =>
    refine ⟨?_, ?_⟩
    · intro h
      exact absurd h (by simp [runRequestheadersFrom])
    · intro h _
      simpa [runRequestheadersFrom] using h
  | cons a rest ih =>
    rw [runRequestheadersFrom]
    by_cases h : (a.onRequestheaders f).response.isSome = true
    · rw [if_pos h]
      exact ⟨fun _ => h, fun _ hfalse => absurd hfalse (by simp)⟩
    · rw [if_neg h]
      have hr := ih (i + 1) (a.onRequestheaders f)
      refine ⟨hr.1, fun _ => hr.2 (by simpa using h)⟩

/-- The `Request` loop visits an initial segment of the registration order. -/
theorem runRequestHooksFrom_events (addons : List AddonModel) (i : Nat) (f : FlowModel) :
    (runRequestHooksFrom i addons f).2 =
      List.range' i (runRequestHooksFrom i addons f).2.length ∧
    (runRequestHooksFrom i addons f).2.length ≤ addons.length := by
  induction addons generalizing i f with
  | nil => simp [runRequestHooksFrom]
  | cons a rest ih =>
    rw [runRequestHooksFrom]
    by_cases h : (a.onRequest f).response.isSome
    · simp only [h, if_true]
      exact ⟨by simp [List.range'], by simp⟩
    · simp only [h, Bool.false_eq_true, if_false]
      have hr := ih (i + 1) (a.onRequest f)
      refine ⟨?_, ?_⟩
      · simp only [List.length_cons, List.range'_succ]
        rw [← hr.1]
      · simp only [List.length_cons]
        omega

/-- `readRequestBody` when the flow is already streaming: pass-through. -/
theorem readRequestBody_streaming (addons : List AddonModel) (f : FlowModel)
    (body : List Nat) (thr : Nat) (hstream : f.stream = true) :
    readRequestBody addons f body thr =
      { flow := f, reader := some body, hookEvents := [] } := by
  unfold readRequestBody
  rw [if_pos hstream]

/-- `readRequestBody` below the threshold: buffer and run the `Request` loop. -/
theorem readRequestBody_small (addons : List AddonModel) (f : FlowModel)
    (body : List Nat) (thr : Nat) (hstream : f.stream = false)
    (hlen : body.length < thr) :
    readRequestBody addons f body thr =
      (let f1 := { f with request := { f.request with body := some body } }
       let r := runRequestHooksFrom 0 addons f1
       if r.1.response.isSome then
         ({ flow := r.1, reader := none, hookEvents := r.2 } : ReadBodyResult)
       else
         { flow := r.1, reader := some (r.1.request.body.getD []), hookEvents := r.2 }) := by
  unfold readRequestBody
  rw [if_neg (by simp [hstream]), readerToBuffer_small body thr hlen]

/-- `readRequestBody` at or above the threshold: switch to streaming. -/
theorem readRequestBody_large (addons : List AddonModel) (f : FlowModel)
    (body : List Nat) (thr : Nat) (hstream : f.stream = false)
    (hlen : thr ≤ body.length) :
    readRequestBody addons f body thr =
      { flow := { f with stream := true }, reader := some body, hookEvents := [] } := by
  unfold readRequestBody
  rw [if_neg (by simp [hstream]), readerToBuffer_large body thr hlen]

/-- `readRequestBody`'s `Request`-hook events are an initial segment of the
registration order. -/
theorem readRequestBody_events (addons : List AddonModel) (f : FlowModel)
    (body : List Nat) (thr : Nat) :
    (readRequestBody addons f body thr).hookEvents =
      List.range (readRequestBody addons f body thr).hookEvents.length ∧
    (readRequestBody addons f body thr).hookEvents.length ≤ addons.length := by
  rcases hstream : f.stream with _ | _
  · by_cases hlen : body.length < thr
    · rw [readRequestBody_small addons f body thr hstream hlen]
      have hr := runRequestHooksFrom_events addons 0
        { f with request := { f.request with body := some body } }
      simp only [apply_ite ReadBodyResult.hookEvents, ite_self]
      refine ⟨?_, hr.2⟩
      rw [List.range_eq_range']
      exact hr.1
    · rw [readRequestBody_large addons f body thr hstream (by omega)]
      simp
  · rw [readRequestBody_streaming addons f body thr hstream]
    simp

/-- **C8.** If an addon sets `Flow.Response` during `Requestheaders`
dispatch, or during `Request` dispatch after buffering, then no addon later
in registration order receives that hook (the invoked positions form an
initial segment of the registration order), the pipeline immediately replies
with the addon-supplied response, and it never builds, dials for, or
executes an upstream request for the flow. -/
theorem c8_short_circuit :
    (∀ (addons : List AddonModel) (up : UpstreamModel) (connCtx : ConnContextModel)
        (req : RequestModel) (body : List Nat) (thr : Nat) (f1 : FlowModel)
        (evs : List Nat),
      handleRequestAddons addons ⟨req, none, false, false⟩ = (f1, evs, true) →
      evs = List.range evs.length ∧
      evs.length ≤ addons.length ∧
      f1.response.isSome = true ∧
      (attack addons up connCtx req body thr).events =
        evs.map AttackEvent.requestheadersHook ++
          [replyEventOf f1.response none, AttackEvent.finish] ∧
      (∀ j, AttackEvent.requestheadersHook j ∈ (attack addons up connCtx req body thr).events →
        j ∈ evs) ∧
      (∀ i, AttackEvent.requestHook i ∉ (attack addons up connCtx req body thr).events) ∧
      AttackEvent.buildProxyRequest ∉ (attack addons up connCtx req body thr).events ∧
      AttackEvent.serverDial ∉ (attack addons up connCtx req body thr).events ∧
      AttackEvent.upstreamDo ∉ (attack addons up connCtx req body thr).events) ∧
    (∀ (addons : List AddonModel) (up : UpstreamModel) (connCtx : ConnContextModel)
        (req : RequestModel) (body : List Nat) (thr : Nat) (f1 : FlowModel)
        (evs : List Nat) (r2 : ReadBodyResult),
      handleRequestAddons addons ⟨req, none, false, false⟩ = (f1, evs, false) →
      readRequestBody addons f1 body thr = r2 →
      r2.flow.response.isSome = true →
      r2.hookEvents = List.range r2.hookEvents.length ∧
      r2.hookEvents.length ≤ addons.length ∧
      (attack addons up connCtx req body thr).events =
        evs.map AttackEvent.requestheadersHook ++
          r2.hookEvents.map AttackEvent.requestHook ++
          [replyEventOf r2.flow.response none, AttackEvent.finish] ∧
      (∀ j, AttackEvent.requestHook j ∈ (attack addons up connCtx req body thr).events →
        j ∈ r2.hookEvents) ∧
      AttackEvent.buildProxyRequest ∉ (attack addons up connCtx req body thr).events ∧
      AttackEvent.serverDial ∉ (attack addons up connCtx req body thr).events ∧
      AttackEvent.upstreamDo ∉ (attack addons up connCtx req body thr).events) := by
  constructor
  · intro addons up connCtx req body thr f1 evs hrh
    have hevents := runRequestheadersFrom_events addons 0 ⟨req, none, false, false⟩
    have hresp := runRequestheadersFrom_response addons 0 ⟨req, none, false, false⟩
    simp only [handleRequestAddons] at hrh
    rw [hrh] at hevents hresp
    have hev : (attack addons up connCtx req body thr).events =
        evs.map AttackEvent.requestheadersHook ++
          [replyEventOf f1.response none, AttackEvent.finish] := by
      simp only [attack, attackBody, handleRequestAddons, hrh, if_true, List.append_assoc,
        List.singleton_append]
    refine ⟨?_, hevents.2, hresp.1 rfl, hev, ?_, ?_, ?_, ?_, ?_⟩
    · rw [List.range_eq_range']
      exact hevents.1
    · intro j hj
      rw [hev] at hj
      rcases List.mem_append.mp hj with hj | hj
      · rcases List.mem_map.mp hj with ⟨a, ha, haj⟩
        cases haj
        exact ha
      · rcases List.mem_cons.mp hj with hj | hj
        · exact absurd hj (by simp [replyEventOf])
        · simp at hj
    · intro i
      rw [hev]
      simp [replyEventOf]
    · rw [hev]
      simp [replyEventOf]
    · rw [hev]
      simp [replyEventOf]
    · rw [hev]
      simp [replyEventOf]
  · intro addons up connCtx req body thr f1 evs r2 hrh hr2 hresp2
    have hevents2 := readRequestBody_events addons f1 body thr
    rw [hr2] at hevents2
    have hev : (attack addons up connCtx req body thr).events =
        evs.map AttackEvent.requestheadersHook ++
          r2.hookEvents.map AttackEvent.requestHook ++
          [replyEventOf r2.flow.response none, AttackEvent.finish] := by
      simp only [attack, attackBody, handleRequestAddons] at *
      rw [hrh]
      simp only [Bool.false_eq_true, if_false, hr2, hresp2, if_true, List.append_assoc,
        List.singleton_append]
    refine ⟨hevents2.1, hevents2.2, hev, ?_, ?_, ?_, ?_⟩
    · intro j hj
      rw [hev] at hj
      rcases List.mem_append.mp hj with hj | hj
      · rcases List.mem_append.mp hj with hj | hj
        · rcases List.mem_map.mp hj with ⟨a, _, haj⟩
          exact absurd haj (by simp)
        · rcases List.mem_map.mp hj with ⟨a, ha, haj⟩
          cases haj
          exact ha
      · rcases List.mem_cons.mp hj with hj | hj
        · exact absurd hj (by simp [replyEventOf])
        · simp at hj
    · rw [hev]
      simp [replyEventOf]
    · rw [hev]
      simp [replyEventOf]
    · rw [hev]
      simp [replyEventOf]

/-- Witness for C8: one addon that answers during `Requestheaders`, a second
addon that never runs. -/
theorem c8_short_circuit_witness :
    (attack [addonSetResponseOnRequestheaders, addonIdentity] exampleUpstream exampleConnCtx
        exampleRequest [1] 5).events =
      [AttackEvent.requestheadersHook 0, replyEventOf (some exampleResponse) none,
       AttackEvent.finish] ∧
    AttackEvent.upstreamDo ∉
      (attack [addonSetResponseOnRequestheaders, addonIdentity] exampleUpstream exampleConnCtx
        exampleRequest [1] 5).events := by
  have h := c8_short_circuit.1 [addonSetResponseOnRequestheaders, addonIdentity]
    exampleUpstream exampleConnCtx exampleRequest [1] 5
    { request := exampleRequest, response := some exampleResponse, stream := false,
      useSeparateClient := false } [0] rfl
  exact ⟨h.2.2.2.1, h.2.2.2.2.2.2.2.2⟩

/-- A mapped hook-event list never contains an event of a different
constructor. -/
theorem not_mem_map_of_ne {α : Type} (g : α → AttackEvent) (e : AttackEvent)
    (hg : ∀ i, g i ≠ e) (l : List α) : e ∉ l.map g := by
  intro h
  rcases List.mem_map.mp h with ⟨a, _, ha⟩
  exact hg a ha

/-- `executeProxyRequest` never records the deferred finish. -/
theorem executeProxyRequest_no_finish (up : UpstreamModel) (connCtx : ConnContextModel)
    (f : FlowModel) (reqBody : Option (List Nat)) (rawHost rawScheme : String) :
    AttackEvent.finish ∉ (executeProxyRequest up connCtx f reqBody rawHost rawScheme).2.2 := by
  unfold executeProxyRequest
  cases hsep : (f.useSeparateClient ||
      (rawHost != f.request.host || rawScheme != f.request.scheme)) <;>
    simp only [hsep] <;> repeat' split
  all_goals simp

/-- Variant of `executeProxyRequest_no_finish` keyed on an equation, for use
at `match` sites. -/
theorem executeProxyRequest_no_finish_eq (up : UpstreamModel) (connCtx : ConnContextModel)
    (f : FlowModel) (reqBody : Option (List Nat)) (rawHost rawScheme : String)
    (result : ExecOutcome × ConnContextModel × List AttackEvent)
    (heq : executeProxyRequest up connCtx f reqBody rawHost rawScheme = result) :
    AttackEvent.finish ∉ result.2.2 :=
  heq ▸ executeProxyRequest_no_finish up connCtx f reqBody rawHost rawScheme

/-- The body of `Attack` (everything before the deferred `f.Finish()`)
records no finish event. -/
theorem attackBody_no_finish (addons : List AddonModel) (up : UpstreamModel)
    (connCtx : ConnContextModel) (req : RequestModel) (body : List Nat) (thr : Nat) :
    AttackEvent.finish ∉ (attackBody addons up connCtx req body thr).events := by
  have hnotrh : ∀ l : List Nat, AttackEvent.finish ∉ l.map AttackEvent.requestheadersHook :=
    fun l => not_mem_map_of_ne _ _ (fun i => by simp) l
  have hnotreq : ∀ l : List Nat, AttackEvent.finish ∉ l.map AttackEvent.requestHook :=
    fun l => not_mem_map_of_ne _ _ (fun i => by simp) l
  have hnotrh2 : ∀ l : List Nat, AttackEvent.finish ∉ l.map AttackEvent.responseheadersHook :=
    fun l => not_mem_map_of_ne _ _ (fun i => by simp) l
  have hnotres : ∀ l : List Nat, AttackEvent.finish ∉ l.map AttackEvent.responseHook :=
    fun l => not_mem_map_of_ne _ _ (fun i => by simp) l
  unfold attackBody
  simp only []
  split
  · intro hmem
    rcases List.mem_append.mp hmem with h | h
    · exact hnotrh _ h
    · rcases List.mem_singleton.mp h with h
      exact absurd h (by simp [replyEventOf])
  · split
    · intro hmem
      rcases List.mem_append.mp hmem with h | h
      · rcases List.mem_append.mp h with h | h
        · exact hnotrh _ h
        · exact hnotreq _ h
      · rcases List.mem_singleton.mp h with h
        exact absurd h (by simp [replyEventOf])
    · split
      · rename_i cc evs heq
        intro hmem
        rcases List.mem_append.mp hmem with h | h
        · rcases List.mem_append.mp h with h | h
          · exact hnotrh _ h
          · exact hnotreq _ h
        · exact executeProxyRequest_no_finish_eq _ _ _ _ _ _ _ heq h
      · rename_i pres cc evs heq
        have hexec : AttackEvent.finish ∉ evs :=
          executeProxyRequest_no_finish_eq _ _ _ _ _ _ _ heq
        split
        · intro hmem
          rcases List.mem_append.mp hmem with h | h
          · rcases List.mem_append.mp h with h | h
            · rcases List.mem_append.mp h with h | h
              · rcases List.mem_append.mp h with h | h
                · exact hnotrh _ h
                · exact hnotreq _ h
              · exact hexec h
            · exact hnotrh2 _ h
          · rcases List.mem_singleton.mp h with h
            exact absurd h (by simp [replyEventOf])
        · intro hmem
          rcases List.mem_append.mp hmem with h | h
          · rcases List.mem_append.mp h with h | h
            · rcases List.mem_append.mp h with h | h
              · rcases List.mem_append.mp h with h | h
                · rcases List.mem_append.mp h with h | h
                  · exact hnotrh _ h
                  · exact hnotreq _ h
                · exact hexec h
              · exact hnotrh2 _ h
            · exact hnotres _ h
          · rcases List.mem_singleton.mp h with h
            exact absurd h (by simp [replyEventOf])

/-- `establishConnection` records no finish event. -/
theorem establish_no_finish (addons : List AddonModel) (o : ConnectOracles)
    (f : FlowModel) : ConnectEvent.finish ∉ (establishConnection addons o f).2.2 := by
  unfold establishConnection
  split
  · simp
  · split
    · simp
    · intro hmem
      rcases List.mem_cons.mp hmem with h | h
      · exact ConnectEvent.noConfusion h
      · rcases List.mem_map.mp h with ⟨a, _, ha⟩
        exact ConnectEvent.noConfusion ha

/-- `directTransfer` records no finish event. -/
theorem directTransfer_no_finish (addons : List AddonModel) (o : ConnectOracles)
    (f : FlowModel) : ConnectEvent.finish ∉ directTransfer addons o f := by
  unfold directTransfer
  split
  · simp
  · intro hmem
    rcases List.mem_cons.mp hmem with h | h
    · exact ConnectEvent.noConfusion h
    · rcases List.mem_append.mp h with h | h
      · exact establish_no_finish addons o f h
      · revert h
        split <;> simp

/-- `httpsDialFirstAttack` records no finish event. -/
theorem dialFirst_no_finish (addons : List AddonModel) (o : ConnectOracles)
    (f : FlowModel) : ConnectEvent.finish ∉ httpsDialFirstAttack addons o f := by
  unfold httpsDialFirstAttack
  split
  · simp
  · intro hmem
    rcases List.mem_cons.mp hmem with h | h
    · exact ConnectEvent.noConfusion h
    · rcases List.mem_append.mp h with h | h
      · exact establish_no_finish addons o f h
      · revert h
        split
        · rcases hpk : o.peek with _ | ⟨b0, b1, b2⟩
          · simp [hpk]
          · rcases hval : peekedIsTLS b0 b1 b2 with _ | b
            · have hs := peekedIsTLS_isSome b0 b1 b2
              rw [hval] at hs
              simp at hs
            · cases b <;> simp [hpk, hval]
        · simp

/-- `httpsDialLazyAttack` records no finish event. -/
theorem lazy_no_finish (addons : List AddonModel) (o : ConnectOracles)
    (f : FlowModel) : ConnectEvent.finish ∉ httpsDialLazyAttack addons o f := by
  unfold httpsDialLazyAttack
  intro hmem
  rcases List.mem_append.mp hmem with h | h
  · exact establish_no_finish addons o f h
  · revert h
    split
    · rcases hpk : o.peek with _ | ⟨b0, b1, b2⟩
      · simp [hpk]
      · rcases hval : peekedIsTLS b0 b1 b2 with _ | b
        · have hs := peekedIsTLS_isSome b0 b1 b2
          rw [hval] at hs
          simp at hs
        · cases b
          · cases hd : o.dialOk <;> simp [hpk, hval, hd]
          · simp [hpk, hval]
    · simp

/-- The body of `handleConnect` (everything before the deferred `f.Finish()`)
records no finish event. -/
theorem handleConnectBody_no_finish (addons : List AddonModel) (o : ConnectOracles)
    (req : RequestModel) : ConnectEvent.finish ∉ handleConnectBody addons o req := by
  unfold handleConnectBody
  intro hmem
  rcases List.mem_append.mp hmem with h | h
  · rcases List.mem_map.mp h with ⟨a, _, ha⟩
    exact ConnectEvent.noConfusion ha
  · revert h
    split
    · exact directTransfer_no_finish addons o _
    · split
      · exact dialFirst_no_finish addons o _
      · exact lazy_no_finish addons o _

/-- **C10.** `Flow.Finish` unconditionally closes the flow's done channel:
after the first call the channel is closed, and a second `Finish` on the
same flow panics (closing a closed channel — `Finish` is not idempotent);
and each pipeline entry point (`Attacker.Attack` and `entry.handleConnect`)
runs `Finish` exactly once per flow, via its single deferred call. -/
theorem c10_finish_once :
    flowFinish false = some true ∧
    flowFinish true = none ∧
    (∀ (addons : List AddonModel) (up : UpstreamModel) (connCtx : ConnContextModel)
        (req : RequestModel) (body : List Nat) (thr : Nat),
      (attack addons up connCtx req body thr).events.count AttackEvent.finish = 1) ∧
    (∀ (addons : List AddonModel) (o : ConnectOracles) (req : RequestModel),
      (handleConnect addons o req).count ConnectEvent.finish = 1) := by
  refine ⟨rfl, rfl, ?_, ?_⟩
  · intro addons up connCtx req body thr
    have h0 : (attackBody addons up connCtx req body thr).events.count AttackEvent.finish = 0 :=
      List.count_eq_zero.mpr (attackBody_no_finish addons up connCtx req body thr)
    show ((attackBody addons up connCtx req body thr).events ++
        [AttackEvent.finish]).count AttackEvent.finish = 1
    rw [List.count_append, h0]
    rfl
  · intro addons o req
    have h0 : (handleConnectBody addons o req).count ConnectEvent.finish = 0 :=
      List.count_eq_zero.mpr (handleConnectBody_no_finish addons o req)
    show ((handleConnectBody addons o req) ++
        [ConnectEvent.finish]).count ConnectEvent.finish = 1
    rw [List.count_append, h0]
    rfl

end GoMitmProxy
